import Mathlib

/-!
Verification of the CAR-backed Solana JSON-RPC server (rpc-server-car).

The definitions below are a shallow embedding of the Go source:
`cmd-rpc-server-car.go` (CAR reading, request parsing, per-transaction
assembly, the generic key-rewriting post-pass) and the `getBlock` handler
(entry fan-out, rewards reassembly and post-processing, response assembly).
External collaborators (index lookups, IPLD decoders, the Zstandard
decompressor, the outer transaction and reward parsers, base58/base64
encoders) are either fields of an explicit environment record or small
definitions modelled from the spec; each such definition says so in its
doc comment.  Go's multiple-return error convention is kept as explicit
pairs with `Option Err`, and Go panics are a distinguished `crash` outcome.
-/

namespace YF

/-- A content identifier: an opaque byte string; equality is bytewise. -/
abbrev Cid := List Nat

/-- Modelled from the spec: the distinguished dummy CID that signals
"no such child" (used for `Rewards` on blocks without rewards); its
definition lives outside src/. -/
def DummyCID : Cid := List.replicate 36 0

/-- Internal error kinds of the archive access layer. -/
inductive Err where
  | notFound
  | ioError
  | decodeError
  | parseError
  deriving DecidableEq

/-- A JSON value, as produced by Go's `encoding/json` into `any`:
objects become string-keyed maps, arrays become slices, numbers become
float64 (modelled as `Int` here; the claims never depend on fractional
values), strings, booleans and null. -/
inductive JVal where
  | null
  | boolean (b : Bool)
  | num (n : Int)
  | str (s : String)
  | arr (elems : List JVal)
  | obj (fields : List (String × JVal))

instance : Inhabited JVal := ⟨JVal.null⟩

/-- One record of the CAR file: the observed CID and the payload bytes. -/
structure CarRecord where
  cid : Cid
  payload : List Nat

/-- The `ipldbindcode.DataFrame` shape, also used for the `Data` and
`Metadata` heads of a transaction node and the `Data` of a rewards node. -/
structure DataFrame where
  data : List Nat
  total : Int
  index : Int
  next : List Cid

/-- Decoded block metadata (`ipldbindcode` meta fields used by the server). -/
structure BlockMeta where
  parent_slot : Int
  blocktime : Int

/-- A decoded `Block` node. -/
structure Block where
  slot : Int
  meta : BlockMeta
  entries : List Cid
  rewards : Cid

/-- A decoded `Entry` node. -/
structure Entry where
  hash : List Nat
  transactions : List Cid

/-- A decoded `Transaction` node. -/
structure TransactionNode where
  data : DataFrame
  metadata : DataFrame
  slot : Int

/-- A decoded `Rewards` node. -/
structure RewardsNode where
  data : DataFrame

/-- Modelled from the spec: the message part of an outer-parsed Solana
transaction (`solana.Transaction.Message`), reduced to the two observations
the server makes of it: whether it is versioned and its version number. -/
structure SolMessage where
  versioned : Bool
  version : Int

/-- Modelled from the spec: an outer-parsed Solana transaction, reduced to
the fields the server reads (`Signatures`, `Message`). -/
structure SolTransaction where
  signatures : List (List Nat)
  message : SolMessage

/-- The zero value `solana.Transaction\x7b\x7d` returned on failure paths. -/
def emptyTx : SolTransaction :=
  { signatures := [], message := { versioned := false, version := 0 } }

/-- `GetBlockRequest` (the parsed params of a getBlock call). -/
structure GetBlockRequest where
  slot : Nat

/-- `GetTransactionResponse` (one element of the response `transactions`). -/
structure GetTransactionResponse where
  blocktime : Option Nat
  meta : Option JVal
  slot : Option Nat
  transaction : List JVal
  version : JVal

instance : Inhabited GetTransactionResponse :=
  ⟨{ blocktime := none, meta := none, slot := none, transaction := [], version := JVal.null }⟩

/-- `GetBlockResponse`, the record handed to `Reply`. -/
structure GetBlockResponse where
  blockHeight : Nat
  blockTime : Option Nat
  blockhash : String
  parentSlot : Nat
  previousBlockhash : String
  rewards : Option JVal
  transactions : List GetTransactionResponse

instance : Inhabited GetBlockResponse :=
  ⟨{ blockHeight := 0, blockTime := none, blockhash := "", parentSlot := 0,
     previousBlockhash := "", rewards := none, transactions := [] }⟩

/-- The environment of the request handlers.  The index lookups
(`findCidFromSlot`, `findOffsetFromCid`: repository code not under src/),
the CAR record reader (`carv2` + `util.ReadNode`), the IPLD decoders
(`iplddecoders`, repository code not under src/), the Zstandard
decompressor, the outer transaction unmarshaller (`bin.UnmarshalBin`),
the metadata parser, the rewards parser fused with its JSON round-trip
(`solanablockrewards.ParseRewards` followed by `json.Marshal`; the
round-trip is modelled as directly producing the JSON value), and base64
transaction encoding (`tx.ToBase64`) are all modelled from the spec as
opaque functions: the spec treats them as external collaborators with
specified interfaces, and no claim depends on their internals. -/
structure Env where
  slotToCid : Nat → Option Cid
  cidToOffset : Cid → Option Nat
  car : Nat → Option CarRecord
  decodeBlock : List Nat → Except Err Block
  decodeEntry : List Nat → Except Err Entry
  decodeTransaction : List Nat → Except Err TransactionNode
  decodeDataFrame : List Nat → Except Err DataFrame
  decodeRewards : List Nat → Except Err RewardsNode
  decompressZstd : List Nat → Except Err (List Nat)
  parseRewards : List Nat → Except Err JVal
  unmarshalTx : List Nat → Except Err SolTransaction
  parseTxMeta : List Nat → Except Err JVal
  toBase64 : SolTransaction → Except Err String

/-- Outcome of a Go computation inside the handler that can reply with a
JSON-RPC error or panic. -/
inductive GoOut (α : Type) where
  | ok (a : α)
  | fail (code : Int) (msg : String)
  | crash

/-- The observable outcome of a request handler: a JSON-RPC error reply,
a result reply, or a crash (Go panic / nil dereference). -/
inductive Outcome where
  | replyError (code : Int) (msg : String)
  | replyResult (resp : GetBlockResponse)
  | crash

/-- Go's `uint64(x)` conversion of a signed integer: reinterpretation
modulo 2^64. -/
def intToU64 (i : Int) : Nat := (i % (2 ^ 64 : Int)).toNat

/-- Big-endian bytes to natural number. -/
def bytesToNat (bs : List Nat) : Nat := bs.foldl (fun acc b => acc * 256 + b % 256) 0

/-- Modelled from the spec: the base58 alphabet used by solana-go hash
rendering (external library). -/
def base58Alphabet : List Char :=
  ("123456789ABCDEFGHJKLMNPQRSTUVWXYZabcdefghijkmnopqrstuvwxyz").toList

/-- Base58 digits with an explicit fuel (the fuel `n` itself always
suffices since the value shrinks by a factor of 58 each step). -/
def natToBase58RevAux : Nat → Nat → List Char
  | 0, _ => []
  | fuel + 1, n =>
    if n = 0 then []
    else base58Alphabet.getD (n % 58) ('1') :: natToBase58RevAux fuel (n / 58)

/-- Base58 digits of a natural number, least significant first. -/
def natToBase58Rev (n : Nat) : List Char := natToBase58RevAux n n

/-- Count of leading zero bytes. -/
def countLeadingZeroBytes : List Nat → Nat
  | [] => 0
  | b :: rest => if b % 256 = 0 then countLeadingZeroBytes rest + 1 else 0

/-- Modelled from the spec: base58 encoding of a byte string as done by
the external solana-go library (`Hash.String`). -/
def base58Encode (bs : List Nat) : String :=
  String.mk (List.replicate (countLeadingZeroBytes bs) ('1') ++ (natToBase58Rev (bytesToNat bs)).reverse)

/-- Modelled from the spec: `solana.HashFromBytes` (external library):
copies at most 32 bytes into a 32-byte value, zero padding at the end. -/
def hashFromBytes (bs : List Nat) : List Nat :=
  bs.take 32 ++ List.replicate (32 - bs.length) 0

/-- Association-list lookup, the model of Go map indexing. -/
def lookupKey (m : List (String × JVal)) (k : String) : Option JVal :=
  (m.find? (fun kv => kv.1 == k)).map (fun kv => kv.2)

/-- Association-list update, the model of Go map assignment. -/
def setKey (m : List (String × JVal)) (k : String) (v : JVal) : List (String × JVal) :=
  if m.any (fun kv => kv.1 == k) then
    m.map (fun kv => if kv.1 == k then (k, v) else kv)
  else m ++ [(k, v)]

/-- Association-list deletion, the model of Go `delete`. -/
def delKey (m : List (String × JVal)) (k : String) : List (String × JVal) :=
  m.filter (fun kv => kv.1 != k)

/-- `rentTypeToString` from the source. -/
def rentTypeToString (typ : Int) : String :=
  if typ = 1 then ("Fee")
  else if typ = 2 then ("Rent")
  else if typ = 3 then ("Staking")
  else if typ = 4 then ("Voting")
  else ("Unknown")

/-- Per-reward post-processing from the `getBlock` rewards block:
add `commission = nil`, rename `post_balance` to `postBalance`, rename
`reward_type` to `rewardType` and stringify a numeric reward type. -/
def processReward (m0 : List (String × JVal)) : List (String × JVal) :=
  let m1 := setKey m0 ("commission") JVal.null
  let m2 :=
    match lookupKey m1 ("post_balance") with
    | some v => delKey (setKey m1 ("postBalance") v) ("post_balance")
    | none => m1
  match lookupKey m2 ("reward_type") with
  | some v =>
    let m3 := delKey (setKey m2 ("rewardType") v) ("reward_type")
    match v with
    | JVal.num n => setKey m3 ("rewardType") (JVal.str (rentTypeToString n))
    | _ => m3
  | none => m2

/-- The loop over `m["rewards"]` elements: each element must be a JSON
object (the Go type assertion panics otherwise, modelled as `none`). -/
def processRewardElems : List JVal → Option (List JVal)
  | [] => some []
  | JVal.obj fields :: rest =>
    (processRewardElems rest).map (fun tail => JVal.obj (processReward fields) :: tail)
  | _ :: _ => none

/-- Split a character list on underscores (the semantics of
`strings.Split(s, "_")`). -/
def splitOnUnderscoreAux : List Char → List Char → List (List Char)
  | [], acc => [acc.reverse]
  | c :: rest, acc =>
    if c = '_' then acc.reverse :: splitOnUnderscoreAux rest []
    else splitOnUnderscoreAux rest (c :: acc)

/-- Capitalize the first character of a word. -/
def capitalizeWord : List Char → List Char
  | [] => []
  | c :: rest => c.toUpper :: rest

/-- Modelled from the spec: `bin.ToPascalCase` (external library) — joins
the snake_case segments of the key, each capitalized. -/
def toPascalCase (s : String) : String :=
  String.mk ((splitOnUnderscoreAux s.toList []).map capitalizeWord).flatten

/-- `toLowerCamelCase` from the source: PascalCase the key, then lower
its first character (the whole string is lowered when it has length 1). -/
def toLowerCamelCase (v : String) : String :=
  let pascal := (toPascalCase v).toList
  if pascal.length = 0 then ""
  else if pascal.length = 1 then String.mk (pascal.map Char.toLower)
  else
    match pascal with
    | [] => ""
    | c :: rest => String.mk (c.toLower :: rest)

mutual

/-- `MapToCamelCase` from the source: rewrite every key of the map,
recurse into object values, and recurse into the object elements of
array values (other array elements, nested arrays included, are kept
as they are). -/
def mapToCamelCase : List (String × JVal) → List (String × JVal)
  | [] => []
  | (k, v) :: rest => (toLowerCamelCase k, camelValue v) :: mapToCamelCase rest

/-- The per-value part of `MapToCamelCase`. -/
def camelValue : JVal → JVal
  | JVal.obj fields => JVal.obj (mapToCamelCase fields)
  | JVal.arr elems => JVal.arr (camelArrElems elems)
  | v => v

/-- The per-array-element part of `MapToCamelCase`: only elements that
are themselves objects are rewritten. -/
def camelArrElems : List JVal → List JVal
  | [] => []
  | JVal.obj fields :: rest => JVal.obj (mapToCamelCase fields) :: camelArrElems rest
  | v :: rest => v :: camelArrElems rest

end

/-- ASCII lower-case letter test. -/
def isAsciiLower (c : Char) : Bool := decide (97 ≤ c.toNat) && decide (c.toNat ≤ 122)

/-- ASCII upper-case letter test. -/
def isAsciiUpper (c : Char) : Bool := decide (65 ≤ c.toNat) && decide (c.toNat ≤ 90)

/-- ASCII digit test. -/
def isAsciiDigit (c : Char) : Bool := decide (48 ≤ c.toNat) && decide (c.toNat ≤ 57)

/-- A character allowed after the first in a lowerCamelCase key. -/
def isCamelTail (c : Char) : Bool := isAsciiLower c || isAsciiUpper c || isAsciiDigit c

/-- The key-case law of the spec: the key matches the pattern of a lower
camel case identifier (first character a-z, rest alphanumeric). -/
def isLowerCamelKey (s : String) : Bool :=
  match s.toList with
  | [] => false
  | c :: rest => isAsciiLower c && rest.all isCamelTail

mutual

/-- Whether every object key at every nesting depth of a JSON value
matches the lowerCamelCase pattern. -/
def allKeysCamel : JVal → Bool
  | JVal.obj fields => allKeysCamelObj fields
  | JVal.arr elems => allKeysCamelArr elems
  | _ => true

/-- `allKeysCamel` over object fields. -/
def allKeysCamelObj : List (String × JVal) → Bool
  | [] => true
  | (k, v) :: rest => isLowerCamelKey k && allKeysCamel v && allKeysCamelObj rest

/-- `allKeysCamel` over array elements. -/
def allKeysCamelArr : List JVal → Bool
  | [] => true
  | v :: rest => allKeysCamel v && allKeysCamelArr rest

end

/-- `GetNodeByOffset` from the source: read the record at the offset and
compare the observed CID to the expected one.  On mismatch the source
executes `return nil, err` where `err` is the (nil) error left over from
the successful `util.ReadNode` call, so the function returns a nil
payload together with a nil error. -/
def GetNodeByOffset (env : Env) (wantedCid : Cid) (offset : Nat) :
    Option (List Nat) × Option Err :=
  match env.car offset with
  | none => (none, some Err.ioError)
  | some r =>
    if r.cid = wantedCid then (some r.payload, none)
    else (none, none)

/-- `GetNodeByCid` from the source: offset lookup, then `GetNodeByOffset`. -/
def GetNodeByCid (env : Env) (wantedCid : Cid) : Option (List Nat) × Option Err :=
  match env.cidToOffset wantedCid with
  | none => (none, some Err.notFound)
  | some off => GetNodeByOffset env wantedCid off

/-- `GetBlock` (the fetch method) from the source: slot to CID, node fetch,
`DecodeBlock`.  A nil payload with a nil error flows into the decoder as
empty bytes, as in Go. -/
def GetBlock (env : Env) (slot : Nat) : Except Err Block :=
  match env.slotToCid slot with
  | none => Except.error Err.notFound
  | some c =>
    match GetNodeByCid env c with
    | (_, some e) => Except.error e
    | (data, none) => env.decodeBlock (data.getD [])

/-- `GetEntryByCid` from the source. -/
def GetEntryByCid (env : Env) (wantedCid : Cid) : Except Err Entry :=
  match GetNodeByCid env wantedCid with
  | (_, some e) => Except.error e
  | (data, none) => env.decodeEntry (data.getD [])

/-- `GetTransactionByCid` from the source. -/
def GetTransactionByCid (env : Env) (wantedCid : Cid) : Except Err TransactionNode :=
  match GetNodeByCid env wantedCid with
  | (_, some e) => Except.error e
  | (data, none) => env.decodeTransaction (data.getD [])

/-- `GetDataFrameByCid` from the source. -/
def GetDataFrameByCid (env : Env) (wantedCid : Cid) : Except Err DataFrame :=
  match GetNodeByCid env wantedCid with
  | (_, some e) => Except.error e
  | (data, none) => env.decodeDataFrame (data.getD [])

/-- `GetRewardsByCid` from the source. -/
def GetRewardsByCid (env : Env) (wantedCid : Cid) : Except Err RewardsNode :=
  match GetNodeByCid env wantedCid with
  | (_, some e) => Except.error e
  | (data, none) => env.decodeRewards (data.getD [])

/-- The continuation-frame loop shared verbatim by the transaction,
metadata and rewards reassembly code: fetch each CID of `next` in order
and concatenate the `data` fields; any fetch or decode failure aborts. -/
def fetchNextFrames (env : Env) : List Cid → Except Err (List Nat)
  | [] => Except.ok []
  | c :: rest =>
    match GetDataFrameByCid env c with
    | Except.error e => Except.error e
    | Except.ok df =>
      match fetchNextFrames env rest with
      | Except.error e => Except.error e
      | Except.ok restData => Except.ok (df.data ++ restData)

/-- Frame reassembly as written in the source: start from `head.data`;
only when `head.total > 1` are the continuation frames fetched and
appended.  The source performs no comparison of the frame count against
`head.total`. -/
def concatFrames (env : Env) (head : DataFrame) : Except Err (List Nat) :=
  if 1 < head.total then
    match fetchNextFrames env head.next with
    | Except.error e => Except.error e
    | Except.ok nextData => Except.ok (head.data ++ nextData)
  else Except.ok head.data

/-- `parseGetBlockRequest` from the source.  Unmarshalling params that are
not a JSON array fails with an error; JSON null leaves the slice nil
without error so `params[0]` panics; an empty array panics the same way;
a non-number first element hits the failed `float64` assertion branch,
which executes `return nil, nil` — a nil request with a nil error. -/
def parseGetBlockRequest (raw : JVal) : GoOut (Option GetBlockRequest × Option Err) :=
  match raw with
  | JVal.arr params =>
    match params.head? with
    | none => GoOut.crash
    | some (JVal.num n) => GoOut.ok (some { slot := intToU64 n }, none)
    | some _ => GoOut.ok (none, none)
  | JVal.null => GoOut.crash
  | _ => GoOut.ok (none, some Err.parseError)

/-- `parseTransactionAndMetaFromNode` from the source.  The
empty-signatures branch executes `return solana.Transaction\x7b\x7d, nil, err`
where `err` is the nil error of the successful unmarshal, so it reports
no error; a metadata decompression or parse failure performs a naked
`return`, keeping the parsed transaction, a nil meta and a nil error. -/
def parseTransactionAndMetaFromNode (env : Env) (transactionNode : TransactionNode) :
    SolTransaction × Option JVal × Option Err :=
  match concatFrames env transactionNode.data with
  | Except.error e => (emptyTx, none, some e)
  | Except.ok txBytes =>
    match env.unmarshalTx txBytes with
    | Except.error e => (emptyTx, none, some e)
    | Except.ok tx =>
      if tx.signatures.length = 0 then (emptyTx, none, none)
      else
        match concatFrames env transactionNode.metadata with
        | Except.error e => (emptyTx, none, some e)
        | Except.ok metaBytes =>
          if 0 < metaBytes.length then
            match env.decompressZstd metaBytes with
            | Except.error _ => (tx, none, none)
            | Except.ok uncompressedMeta =>
              match env.parseTxMeta uncompressedMeta with
              | Except.error _ => (tx, none, none)
              | Except.ok status => (tx, some status, none)
          else (tx, none, none)

/-- The inner transaction loop of an entry in the `getBlock` fan-out:
a transaction whose fetch or decode fails is logged and skipped
(`continue`); the rest are accumulated in order. -/
def processEntryTxs (env : Env) : List Cid → List TransactionNode
  | [] => []
  | c :: rest =>
    match GetTransactionByCid env c with
    | Except.error _ => processEntryTxs env rest
    | Except.ok txNode => txNode :: processEntryTxs env rest

/-- The entry fan-out of `getBlock`, sequentialized: each entry is fetched
and decoded (a failure of any entry fails the whole loop, as the errgroup
`Wait` reports it), its transactions are accumulated with per-transaction
failures skipped, and the hash of the last entry (by index) is recorded. -/
def entriesLoop (env : Env) : List Cid → Except Err (List TransactionNode × Option (List Nat))
  | [] => Except.ok ([], none)
  | c :: rest =>
    match GetEntryByCid env c with
    | Except.error e => Except.error e
    | Except.ok entryNode =>
      match entriesLoop env rest with
      | Except.error e => Except.error e
      | Except.ok (restTxs, lastH) =>
        Except.ok (processEntryTxs env entryNode.transactions ++ restTxs,
          if rest.isEmpty then some (hashFromBytes entryNode.hash) else lastH)

/-- The rewards block of `getBlock`: skip when the rewards CID is the
dummy; fetch and decode the rewards node and its continuation frames
(failures reply Internal error); decompress (a failure panics, as the
source calls `panic(err)`); parse (a failure is only logged and rewards
stay nil); JSON round-trip into a map (a non-object fails with Internal
error, a JSON null leaves a nil map and the `rewards` key is then simply
absent); post-process `m["rewards"]` when present (the type assertions
panic on non-array or non-object elements), else only log. -/
def rewardsStep (env : Env) (rewardsCid : Cid) : GoOut (Option JVal) :=
  if rewardsCid = DummyCID then GoOut.ok none
  else
    match GetRewardsByCid env rewardsCid with
    | Except.error _ => GoOut.fail (-32603) ("Internal error")
    | Except.ok rewardsNode =>
      match concatFrames env rewardsNode.data with
      | Except.error _ => GoOut.fail (-32603) ("Internal error")
      | Except.ok buf =>
        match env.decompressZstd buf with
        | Except.error _ => GoOut.crash
        | Except.ok uncompressedRewards =>
          match env.parseRewards uncompressedRewards with
          | Except.error _ => GoOut.ok none
          | Except.ok actualRewards =>
            match actualRewards with
            | JVal.obj m =>
              match lookupKey m ("rewards") with
              | none => GoOut.ok none
              | some rv =>
                match rv with
                | JVal.arr elems =>
                  match processRewardElems elems with
                  | none => GoOut.crash
                  | some elems2 => GoOut.ok (some (JVal.arr elems2))
                | _ => GoOut.crash
            | JVal.null => GoOut.ok none
            | _ => GoOut.fail (-32603) ("Internal error")

/-- The per-transaction assembly loop of `getBlock`: a failing result from
`parseTransactionAndMetaFromNode` or from base64 encoding replies
Internal error; otherwise the version tag, meta and `[base64, "base64"]`
pair are recorded. -/
def buildTxResponses (env : Env) : List TransactionNode → GoOut (List GetTransactionResponse)
  | [] => GoOut.ok []
  | transactionNode :: rest =>
    match parseTransactionAndMetaFromNode env transactionNode with
    | (_, _, some _) => GoOut.fail (-32603) ("Internal error")
    | (tx, meta, none) =>
      let version : JVal :=
        if tx.message.versioned then JVal.num (tx.message.version - 1)
        else JVal.str ("legacy")
      match env.toBase64 tx with
      | Except.error _ => GoOut.fail (-32603) ("Internal error")
      | Except.ok b64Tx =>
        match buildTxResponses env rest with
        | GoOut.ok tail =>
          GoOut.ok ({ blocktime := none, meta := meta, slot := none,
                      transaction := [JVal.str b64Tx, JVal.str ("base64")],
                      version := version } :: tail)
        | GoOut.fail code msg => GoOut.fail code msg
        | GoOut.crash => GoOut.crash

/-- The parent-blockhash block of `getBlock`: when `parent_slot` is not 0,
fetch the parent block (failure replies Internal error), take its last
entry (`Entries[len-1]` panics when the parent has no entries), fetch it
(failure replies Internal error) and render its hash. -/
def previousBlockhashStep (env : Env) (parentSlot : Nat) : GoOut String :=
  if parentSlot ≠ 0 then
    match GetBlock env parentSlot with
    | Except.error _ => GoOut.fail (-32603) ("Internal error")
    | Except.ok parentBlock =>
      match parentBlock.entries.getLast? with
      | none => GoOut.crash
      | some lastEntryCidOfParent =>
        match GetEntryByCid env lastEntryCidOfParent with
        | Except.error _ => GoOut.fail (-32603) ("Internal error")
        | Except.ok parentEntryNode =>
          GoOut.ok (base58Encode (hashFromBytes parentEntryNode.hash))
  else GoOut.ok ""

/-- `calcBlockHeight` from the source: hardcoded to 0 (marked TODO). -/
def calcBlockHeight (slot : Nat) : Nat := 0

/-- The tail of the `getBlock` handler after the entry fan-out has
produced the transaction nodes and the last-entry hash: the rewards
block, the per-transaction assembly, the parent-blockhash block and the
assembly of the `GetBlockResponse` handed to `Reply` (which applies the
`MapToCamelCase` post-pass, modelled separately). -/
def assembleResponse (env : Env) (block : Block)
    (allTransactionNodes : List TransactionNode) (lastEntryHash : List Nat) : Outcome :=
  match rewardsStep env block.rewards with
  | GoOut.crash => Outcome.crash
  | GoOut.fail code msg => Outcome.replyError code msg
  | GoOut.ok rewards =>
    match buildTxResponses env allTransactionNodes with
    | GoOut.crash => Outcome.crash
    | GoOut.fail code msg => Outcome.replyError code msg
    | GoOut.ok allTransactions =>
      match previousBlockhashStep env (intToU64 block.meta.parent_slot) with
      | GoOut.crash => Outcome.crash
      | GoOut.fail code msg => Outcome.replyError code msg
      | GoOut.ok previousBlockhash =>
        Outcome.replyResult
          { blockHeight := calcBlockHeight (intToU64 block.slot)
            blockTime := some (intToU64 block.meta.blocktime)
            blockhash := base58Encode lastEntryHash
            parentSlot := intToU64 block.meta.parent_slot
            previousBlockhash := previousBlockhash
            rewards := rewards
            transactions := allTransactions }

/-- The body of the `getBlock` handler once the slot is known: fetch and
decode the block (a failure replies -32603 with message "Failed to get
block"), run the entry fan-out (a failure replies -32603 "Internal
error"), then assemble the response. -/
def getBlockWithSlot (env : Env) (slot : Nat) : Outcome :=
  match GetBlock env slot with
  | Except.error _ => Outcome.replyError (-32603) ("Failed to get block")
  | Except.ok block =>
    match entriesLoop env block.entries with
    | Except.error _ => Outcome.replyError (-32603) ("Internal error")
    | Except.ok (allTransactionNodes, lastH) =>
      assembleResponse env block allTransactionNodes (lastH.getD (List.replicate 32 0))

/-- The `getBlock` handler from the source, sequentialized: parse params
(an unmarshal failure replies Invalid params; a nil request returned
together with a nil error is then dereferenced at `params.Slot` — a
crash), then proceed with the parsed slot. -/
def getBlock (env : Env) (rawParams : JVal) : Outcome :=
  match parseGetBlockRequest rawParams with
  | GoOut.crash => Outcome.crash
  | GoOut.fail _ _ => Outcome.crash
  | GoOut.ok (_, some _) => Outcome.replyError (-32602) ("Invalid params")
  | GoOut.ok (none, none) => Outcome.crash
  | GoOut.ok (some params, none) => getBlockWithSlot env params.slot

/-- An environment in which every lookup and every decoder fails: the
base of the concrete test environments below. -/
def envFail : Env :=
  { slotToCid := fun _ => none
    cidToOffset := fun _ => none
    car := fun _ => none
    decodeBlock := fun _ => Except.error Err.decodeError
    decodeEntry := fun _ => Except.error Err.decodeError
    decodeTransaction := fun _ => Except.error Err.decodeError
    decodeDataFrame := fun _ => Except.error Err.decodeError
    decodeRewards := fun _ => Except.error Err.decodeError
    decompressZstd := fun _ => Except.error Err.ioError
    parseRewards := fun _ => Except.error Err.parseError
    unmarshalTx := fun _ => Except.error Err.parseError
    parseTxMeta := fun _ => Except.error Err.parseError
    toBase64 := fun _ => Except.error Err.ioError }

/-- A CID used as a block CID in the happy-path environment. -/
def cB : Cid := [1]

/-- A CID used as an entry CID in the happy-path environment. -/
def cE : Cid := [2]

/-- The single entry of the happy-path block: a 32-byte hash, no
transactions. -/
def entry1 : Entry := { hash := List.replicate 31 0 ++ [1], transactions := [] }

/-- The happy-path block at slot 5: parent slot 0, a negative blocktime,
one entry, dummy rewards. -/
def block5 : Block :=
  { slot := 5, meta := { parent_slot := 0, blocktime := -7 }, entries := [cE],
    rewards := DummyCID }

/-- A concrete environment on which `getBlock 5` succeeds. -/
def envHappy : Env :=
  { envFail with
    slotToCid := fun s => if s = 5 then some cB else none
    cidToOffset := fun c => if c = cB then some 0 else if c = cE then some 1 else none
    car := fun o =>
      if o = 0 then some { cid := cB, payload := [10] }
      else if o = 1 then some { cid := cE, payload := [11] }
      else none
    decodeBlock := fun bs => if bs = [10] then Except.ok block5 else Except.error Err.decodeError
    decodeEntry := fun bs => if bs = [11] then Except.ok entry1 else Except.error Err.decodeError }

/-- The response produced by `getBlock` on the happy-path environment. -/
def happyResp : GetBlockResponse :=
  match getBlock envHappy (JVal.arr [JVal.num 5]) with
  | Outcome.replyResult r => r
  | _ => default

/-- A CID used as a block CID in the rewards-bearing environments. -/
def cB7 : Cid := [4]

/-- The rewards CID of the rewards-bearing environments. -/
def cR : Cid := [3]

/-- A block at slot 7 with no entries and a non-dummy rewards CID. -/
def block7 : Block :=
  { slot := 7, meta := { parent_slot := 0, blocktime := 0 }, entries := [], rewards := cR }

/-- A single-frame rewards node. -/
def rewardsNode1 : RewardsNode :=
  { data := { data := [5], total := 1, index := 0, next := [] } }

/-- An environment on which the rewards bytes reassemble and decompress,
but the rewards parser rejects them. -/
def envC2 : Env :=
  { envFail with
    slotToCid := fun s => if s = 7 then some cB7 else none
    cidToOffset := fun c => if c = cB7 then some 0 else if c = cR then some 1 else none
    car := fun o =>
      if o = 0 then some { cid := cB7, payload := [12] }
      else if o = 1 then some { cid := cR, payload := [13] }
      else none
    decodeBlock := fun bs => if bs = [12] then Except.ok block7 else Except.error Err.decodeError
    decodeRewards := fun bs => if bs = [13] then Except.ok rewardsNode1 else Except.error Err.decodeError
    decompressZstd := fun bs => if bs = [5] then Except.ok [6] else Except.error Err.ioError }

/-- The response produced by `getBlock 7` on `envC2`. -/
def respC2 : GetBlockResponse :=
  match getBlock envC2 (JVal.arr [JVal.num 7]) with
  | Outcome.replyResult r => r
  | _ => default

/-- Like `envC2`, but the rewards parser succeeds with a JSON object that
lacks the top-level `rewards` key. -/
def envC7 : Env :=
  { envC2 with
    parseRewards := fun bs =>
      if bs = [6] then Except.ok (JVal.obj [("foo", JVal.num 1)])
      else Except.error Err.parseError }

/-- The response produced by `getBlock 7` on `envC7`. -/
def respC7 : GetBlockResponse :=
  match getBlock envC7 (JVal.arr [JVal.num 7]) with
  | Outcome.replyResult r => r
  | _ => default

/-- Like `envC2`, but the rewards node declares two frames with a single
continuation CID that resolves to nothing, so the frame fetch fails. -/
def envRF : Env :=
  { envC2 with
    decodeRewards := fun bs =>
      if bs = [13] then Except.ok { data := { data := [5], total := 2, index := 0, next := [[6]] } }
      else Except.error Err.decodeError }

/-- Like `envC2`, but decompression fails (the source then panics). -/
def envRZ : Env :=
  { envC2 with decompressZstd := fun _ => Except.error Err.ioError }

/-- An environment whose block at slot 9 has one entry whose CID does
not resolve, so the entry fan-out fails. -/
def envEF : Env :=
  { envFail with
    slotToCid := fun s => if s = 9 then some [5] else none
    cidToOffset := fun c => if c = [5] then some 0 else none
    car := fun o => if o = 0 then some { cid := [5], payload := [14] } else none
    decodeBlock := fun bs =>
      if bs = [14] then
        Except.ok { slot := 9, meta := { parent_slot := 0, blocktime := 0 }, entries := [[6]],
                    rewards := DummyCID }
      else Except.error Err.decodeError }

/-- A CID for the continuation frame of the frame-count counterexample. -/
def cF : Cid := [7]

/-- The single continuation frame of the frame-count counterexample. -/
def frameC3 : DataFrame := { data := [3], total := 1, index := 1, next := [] }

/-- A parsed transaction with one signature. -/
def txC3 : SolTransaction :=
  { signatures := [List.replicate 64 1], message := { versioned := false, version := 0 } }

/-- A transaction node whose data head declares `total = 3` but lists a
single continuation CID (so head plus continuations is 2 frames, not 3). -/
def nodeC3 : TransactionNode :=
  { data := { data := [1, 2], total := 3, index := 0, next := [cF] }
    metadata := { data := [], total := 1, index := 0, next := [] }
    slot := 0 }

/-- An environment resolving the continuation frame of `nodeC3` and
unmarshalling the reassembled bytes into `txC3`. -/
def envC3 : Env :=
  { envFail with
    cidToOffset := fun c => if c = cF then some 0 else none
    car := fun o => if o = 0 then some { cid := cF, payload := [20] } else none
    decodeDataFrame := fun bs => if bs = [20] then Except.ok frameC3 else Except.error Err.decodeError
    unmarshalTx := fun bs => if bs = [1, 2, 3] then Except.ok txC3 else Except.error Err.parseError }

/-- A single-frame transaction node whose bytes unmarshal to a
transaction with zero signatures. -/
def nodeC4 : TransactionNode :=
  { data := { data := [9], total := 1, index := 0, next := [] }
    metadata := { data := [], total := 1, index := 0, next := [] }
    slot := 0 }

/-- An environment on which `nodeC4`'s bytes unmarshal to the empty
transaction (zero signatures) and base64 encoding succeeds. -/
def envC4 : Env :=
  { envFail with
    unmarshalTx := fun bs => if bs = [9] then Except.ok emptyTx else Except.error Err.parseError
    toBase64 := fun _ => Except.ok ("AA==") }

/-- An environment whose CAR record at offset 0 carries a CID different
from any expected one. -/
def envMismatch : Env :=
  { envFail with
    car := fun o => if o = 0 then some { cid := [8], payload := [42] } else none }

theorem intToU64_natCast (n : Nat) (hn : n < 2 ^ 64) : intToU64 (n : Int) = n := by
  unfold intToU64
  omega

theorem getBlock_num (env : Env) (n : Nat) (hn : n < 2 ^ 64) :
    getBlock env (JVal.arr [JVal.num (n : Int)]) = getBlockWithSlot env n := by
  have hp : parseGetBlockRequest (JVal.arr [JVal.num (n : Int)]) =
      GoOut.ok (some { slot := intToU64 (n : Int) }, none) := rfl
  unfold getBlock
  rw [hp, intToU64_natCast n hn]

theorem getBlockWithSlot_blockErr (env : Env) (slot : Nat) (e : Err)
    (h : GetBlock env slot = Except.error e) :
    getBlockWithSlot env slot = Outcome.replyError (-32603) ("Failed to get block") := by
  unfold getBlockWithSlot
  rw [h]

theorem getBlockWithSlot_entriesErr (env : Env) (slot : Nat) (block : Block) (e : Err)
    (hb : GetBlock env slot = Except.ok block)
    (he : entriesLoop env block.entries = Except.error e) :
    getBlockWithSlot env slot = Outcome.replyError (-32603) ("Internal error") := by
  unfold getBlockWithSlot
  rw [hb]
  simp only [he]

theorem getBlockWithSlot_assemble (env : Env) (slot : Nat) (block : Block)
    (txNodes : List TransactionNode) (lastH : Option (List Nat))
    (hb : GetBlock env slot = Except.ok block)
    (he : entriesLoop env block.entries = Except.ok (txNodes, lastH)) :
    getBlockWithSlot env slot =
      assembleResponse env block txNodes (lastH.getD (List.replicate 32 0)) := by
  unfold getBlockWithSlot
  rw [hb]
  simp only [he]

theorem assembleResponse_rewardsCrash (env : Env) (block : Block)
    (txNodes : List TransactionNode) (lastHash : List Nat)
    (hr : rewardsStep env block.rewards = GoOut.crash) :
    assembleResponse env block txNodes lastHash = Outcome.crash := by
  unfold assembleResponse
  rw [hr]

theorem assembleResponse_rewardsFail (env : Env) (block : Block)
    (txNodes : List TransactionNode) (lastHash : List Nat) (code : Int) (msg : String)
    (hr : rewardsStep env block.rewards = GoOut.fail code msg) :
    assembleResponse env block txNodes lastHash = Outcome.replyError code msg := by
  unfold assembleResponse
  rw [hr]

theorem assembleResponse_result (env : Env) (block : Block)
    (txNodes : List TransactionNode) (lastHash : List Nat) (resp : GetBlockResponse)
    (h : assembleResponse env block txNodes lastHash = Outcome.replyResult resp) :
    ∃ rw0 ats pv,
      rewardsStep env block.rewards = GoOut.ok rw0 ∧
      buildTxResponses env txNodes = GoOut.ok ats ∧
      previousBlockhashStep env (intToU64 block.meta.parent_slot) = GoOut.ok pv ∧
      resp = { blockHeight := calcBlockHeight (intToU64 block.slot)
               blockTime := some (intToU64 block.meta.blocktime)
               blockhash := base58Encode lastHash
               parentSlot := intToU64 block.meta.parent_slot
               previousBlockhash := pv
               rewards := rw0
               transactions := ats } := by
  unfold assembleResponse at h
  split at h
  · exact Outcome.noConfusion h
  · exact Outcome.noConfusion h
  · rename_i rw0 hr
    split at h
    · exact Outcome.noConfusion h
    · exact Outcome.noConfusion h
    · rename_i ats hbt
      split at h
      · exact Outcome.noConfusion h
      · exact Outcome.noConfusion h
      · rename_i pv hp
        exact ⟨rw0, ats, pv, hr, hbt, hp, (Outcome.replyResult.inj h).symm⟩

theorem getBlockWithSlot_result (env : Env) (slot : Nat) (resp : GetBlockResponse)
    (h : getBlockWithSlot env slot = Outcome.replyResult resp) :
    ∃ block txNodes lastH,
      GetBlock env slot = Except.ok block ∧
      entriesLoop env block.entries = Except.ok (txNodes, lastH) ∧
      assembleResponse env block txNodes (lastH.getD (List.replicate 32 0)) =
        Outcome.replyResult resp := by
  unfold getBlockWithSlot at h
  split at h
  · exact Outcome.noConfusion h
  · rename_i block hb
    split at h
    · exact Outcome.noConfusion h
    · rename_i txNodes lastH he
      exact ⟨block, txNodes, lastH, hb, he, h⟩

theorem processEntryTxs_filterMap (env : Env) (cs : List Cid) :
    processEntryTxs env cs = cs.filterMap (fun c => (GetTransactionByCid env c).toOption) := by
  induction cs with
  | nil => rfl
  | cons c rest ih =>
    cases hc : GetTransactionByCid env c with
    | error e => simp [processEntryTxs, List.filterMap_cons, hc, Except.toOption, ih]
    | ok t => simp [processEntryTxs, List.filterMap_cons, hc, Except.toOption, ih]

theorem entriesLoop_err (env : Env) :
    ∀ l : List Cid, (∃ c ∈ l, ∃ e, GetEntryByCid env c = Except.error e) →
      ∃ e, entriesLoop env l = Except.error e := by
  intro l
  induction l with
  | nil =>
    rintro ⟨c, hc, _⟩
    simp at hc
  | cons c rest ih =>
    rintro ⟨c0, hc0, e0, he0⟩
    cases hc : GetEntryByCid env c with
    | error e =>
      refine ⟨e, ?_⟩
      rw [entriesLoop, hc]
    | ok entryNode =>
      have hc0r : c0 ∈ rest := by
        rcases List.mem_cons.mp hc0 with h | h
        · rw [h, hc] at he0
          exact Except.noConfusion he0
        · exact h
      obtain ⟨e1, he1⟩ := ih ⟨c0, hc0r, e0, he0⟩
      refine ⟨e1, ?_⟩
      rw [entriesLoop, hc]
      simp only [he1]

theorem entriesLoop_last (env : Env) :
    ∀ (l : List Cid) (txs : List TransactionNode) (lastH : Option (List Nat)) (cLast : Cid),
      entriesLoop env l = Except.ok (txs, lastH) → l.getLast? = some cLast →
      ∃ en, GetEntryByCid env cLast = Except.ok en ∧ lastH = some (hashFromBytes en.hash) := by
  intro l
  induction l with
  | nil =>
    intro txs lastH cLast _ hl
    simp at hl
  | cons c rest ih =>
    intro txs lastH cLast h hl
    rw [entriesLoop] at h
    split at h
    · exact Except.noConfusion h
    · rename_i entryNode hc
      split at h
      · exact Except.noConfusion h
      · rename_i restTxs lastH2 hrest
        have h2 := Except.ok.inj h
        have h2b : (if rest.isEmpty then some (hashFromBytes entryNode.hash) else lastH2) = lastH :=
          congrArg Prod.snd h2
        cases rest with
        | nil =>
          have hcl : c = cLast := by simpa using hl
          subst hcl
          refine ⟨entryNode, hc, ?_⟩
          rw [← h2b]
          simp
        | cons r rs =>
          have hl2 : (r :: rs).getLast? = some cLast := by
            rw [← hl]
            exact List.getLast?_cons_cons.symm
          have hlh : lastH = lastH2 := by
            rw [← h2b]
            simp
          obtain ⟨en, hen, hlast⟩ := ih restTxs lastH2 cLast hrest hl2
          exact ⟨en, hen, by rw [hlh, hlast]⟩

theorem hashFromBytes_of_length (bs : List Nat) (h : bs.length = 32) :
    hashFromBytes bs = bs := by
  unfold hashFromBytes
  rw [List.take_of_length_le (le_of_eq h), h]
  simp

/-- C1: at an indexed offset whose record carries a CID different from
the expected one, `GetNodeByOffset` does not fail with a cid_mismatch
error: the mismatch branch of the source returns the stale nil error of
the successful `util.ReadNode` call, so the caller observes a nil
payload together with a nil error (the `klog` "CID mismatch" message
shows that failing was the intent). -/
theorem C1_cid_mismatch_returns_no_error (env : Env) (wantedCid : Cid) (offset : Nat)
    (r : CarRecord) (hr : env.car offset = some r) (hne : r.cid ≠ wantedCid) :
    GetNodeByOffset env wantedCid offset = (none, none) := by
  unfold GetNodeByOffset
  rw [hr]
  simp [hne]

/-- C1 witness: a concrete record with CID `[8]` read expecting CID `[9]`. -/
theorem C1_witness :
    envMismatch.car 0 = some { cid := [8], payload := [42] } ∧
    ([8] : Cid) ≠ ([9] : Cid) ∧
    GetNodeByOffset envMismatch [9] 0 = (none, none) :=
  ⟨rfl, by decide,
    C1_cid_mismatch_returns_no_error envMismatch [9] 0 { cid := [8], payload := [42] }
      rfl (by decide)⟩

/-- C3 counterexample: `nodeC3` declares `total = 3` but lists a single
continuation frame (2 frames in all, head included); its reassembly and
the whole per-transaction parse nevertheless succeed with no error, so
no frame_count_mismatch failure occurs. -/
theorem C3_counterexample :
    nodeC3.data.total = 3 ∧
    nodeC3.data.next.length + 1 = 2 ∧
    parseTransactionAndMetaFromNode envC3 nodeC3 = (txC3, none, none) :=
  ⟨rfl, rfl, rfl⟩

/-- C3 amended: reassembly of a multi-frame payload performs no
frame-count comparison at all: with `total > 1` it concatenates
`head.data` with the data of every frame resolved from `head.next` in
order, and succeeds whenever every CID of `next` resolves and decodes,
regardless of whether the frame count equals `total`. -/
theorem C3_no_frame_count_verification (env : Env) (head : DataFrame)
    (ht : 1 < head.total)
    (hall : ∀ c ∈ head.next, ∃ df, GetDataFrameByCid env c = Except.ok df) :
    concatFrames env head =
      Except.ok (head.data ++
        (head.next.map (fun c =>
          (((GetDataFrameByCid env c).toOption).map DataFrame.data).getD [])).flatten) := by
  unfold concatFrames
  rw [if_pos ht]
  have hfetch : ∀ l : List Cid, (∀ c ∈ l, ∃ df, GetDataFrameByCid env c = Except.ok df) →
      fetchNextFrames env l = Except.ok
        ((l.map (fun c =>
          (((GetDataFrameByCid env c).toOption).map DataFrame.data).getD [])).flatten) := by
    intro l
    induction l with
    | nil => intro _; rfl
    | cons c rest ih =>
      intro hall2
      obtain ⟨df, hdf⟩ := hall2 c (List.mem_cons_self c rest)
      rw [fetchNextFrames, hdf, ih (fun c2 hc2 => hall2 c2 (List.mem_cons_of_mem c hc2))]
      simp [hdf, Except.toOption]
  rw [hfetch head.next hall]

/-- C3 witness: the amended statement applied to the concrete `nodeC3`
head and environment. -/
theorem C3_witness :
    1 < nodeC3.data.total ∧
    concatFrames envC3 nodeC3.data = Except.ok [1, 2, 3] := by
  refine ⟨by decide, ?_⟩
  have h := C3_no_frame_count_verification envC3 nodeC3.data (by decide)
    (by
      intro c hc
      have hcf : c = cF := by simpa [nodeC3] using hc
      rw [hcf]
      exact ⟨frameC3, rfl⟩)
  exact h

/-- C4: a transaction whose reassembled bytes unmarshal to a transaction
with zero signatures is not refused: the empty-signatures branch of the
source returns the stale nil error of the successful unmarshal, so the
per-transaction assembly reports success with the zero-value
transaction, and a response element is produced for it (built from the
empty transaction). -/
theorem C4_empty_signatures_not_refused (env : Env) (node : TransactionNode)
    (bs : List Nat) (tx : SolTransaction) (s : String)
    (h1 : concatFrames env node.data = Except.ok bs)
    (h2 : env.unmarshalTx bs = Except.ok tx)
    (h3 : tx.signatures = [])
    (h4 : env.toBase64 emptyTx = Except.ok s) :
    parseTransactionAndMetaFromNode env node = (emptyTx, none, none) ∧
    buildTxResponses env [node] = GoOut.ok
      [{ blocktime := none, meta := none, slot := none,
         transaction := [JVal.str s, JVal.str ("base64")],
         version := JVal.str ("legacy") }] := by
  have hp : parseTransactionAndMetaFromNode env node = (emptyTx, none, none) := by
    unfold parseTransactionAndMetaFromNode
    rw [h1]
    simp only [h2, h3]
    simp
  refine ⟨hp, ?_⟩
  rw [buildTxResponses]
  simp only [hp, h4]
  rfl

/-- C4 witness: the concrete zero-signature node `nodeC4` on `envC4`. -/
theorem C4_witness :
    concatFrames envC4 nodeC4.data = Except.ok [9] ∧
    envC4.unmarshalTx [9] = Except.ok emptyTx ∧
    emptyTx.signatures = [] ∧
    parseTransactionAndMetaFromNode envC4 nodeC4 = (emptyTx, none, none) ∧
    buildTxResponses envC4 [nodeC4] = GoOut.ok
      [{ blocktime := none, meta := none, slot := none,
         transaction := [JVal.str ("AA=="), JVal.str ("base64")],
         version := JVal.str ("legacy") }] := by
  have h := C4_empty_signatures_not_refused envC4 nodeC4 [9] emptyTx ("AA==") rfl rfl rfl rfl
  exact ⟨rfl, rfl, rfl, h.1, h.2⟩

/-- C6: a getBlock request whose first parameter is not a number (or
whose params array is empty) makes the handler crash: the failed
`float64` assertion branch of `parseGetBlockRequest` returns a nil
request with a nil error, which the handler dereferences at
`params.Slot` (for an empty array, `params[0]` panics directly).  Only
params that fail to unmarshal as an array reply -32602 Invalid params,
as the claim intends for all malformed params. -/
theorem C6_invalid_params_crash (env : Env) :
    getBlock env (JVal.arr [JVal.str ("abc")]) = Outcome.crash ∧
    getBlock env (JVal.arr []) = Outcome.crash ∧
    getBlock env (JVal.str ("x")) = Outcome.replyError (-32602) ("Invalid params") :=
  ⟨rfl, rfl, rfl⟩

/-- C6 witness: the crash on a concrete environment. -/
theorem C6_witness : getBlock envFail (JVal.arr [JVal.str ("abc")]) = Outcome.crash :=
  (C6_invalid_params_crash envFail).1

/-- C5 counterexample: a getBlock whose slot is absent from the
slot-to-CID index replies with code -32603 but with message "Failed to
get block", not with the message "Internal error" the claim requires. -/
theorem C5_counterexample :
    envFail.slotToCid 5 = none ∧
    getBlock envFail (JVal.arr [JVal.num 5]) =
      Outcome.replyError (-32603) ("Failed to get block") ∧
    ("Failed to get block" : String) ≠ ("Internal error" : String) :=
  ⟨rfl, rfl, by decide⟩

/-- C5 amended: internal failures reply with JSON-RPC code -32603; a
failure of the block fetch step of getBlock — including a slot absent
from the slot-to-CID index — carries the message "Failed to get block",
while the later internal failures of getBlock carry the message exactly
"Internal error". -/
theorem C5_internal_error_messages :
    (∀ (env : Env) (n : Nat), env.slotToCid n = none →
      GetBlock env n = Except.error Err.notFound) ∧
    (∀ (env : Env) (n : Nat) (e : Err), n < 2 ^ 64 → GetBlock env n = Except.error e →
      getBlock env (JVal.arr [JVal.num (n : Int)]) =
        Outcome.replyError (-32603) ("Failed to get block")) ∧
    (∀ (env : Env) (n : Nat) (block : Block) (e : Err), n < 2 ^ 64 →
      GetBlock env n = Except.ok block →
      entriesLoop env block.entries = Except.error e →
      getBlock env (JVal.arr [JVal.num (n : Int)]) =
        Outcome.replyError (-32603) ("Internal error")) := by
  refine ⟨?_, ?_, ?_⟩
  · intro env n h
    unfold GetBlock
    rw [h]
  · intro env n e hn h
    rw [getBlock_num env n hn]
    exact getBlockWithSlot_blockErr env n e h
  · intro env n block e hn hb he
    rw [getBlock_num env n hn]
    exact getBlockWithSlot_entriesErr env n block e hb he

/-- C5 witness: the message of the block-fetch failure at a missing
slot, and the message of an entry fan-out failure, on concrete
environments. -/
theorem C5_witness :
    envFail.slotToCid 5 = none ∧
    getBlock envFail (JVal.arr [JVal.num 5]) =
      Outcome.replyError (-32603) ("Failed to get block") ∧
    getBlock envEF (JVal.arr [JVal.num 9]) =
      Outcome.replyError (-32603) ("Internal error") := by
  obtain ⟨h1, h2, h3⟩ := C5_internal_error_messages
  refine ⟨rfl, ?_, ?_⟩
  · exact h2 envFail 5 Err.notFound (by norm_num) rfl
  · exact h3 envEF 9
      { slot := 9, meta := { parent_slot := 0, blocktime := 0 }, entries := [[6]],
        rewards := DummyCID }
      Err.notFound (by norm_num) rfl rfl

/-- C7 counterexample: on `envC7` the external reward parser produces an
object without a top-level `rewards` key, yet the getBlock request
succeeds (the condition is only logged) and the response carries null
rewards, contradicting the claim that the request fails with an error. -/
theorem C7_counterexample :
    envC7.parseRewards [6] = Except.ok (JVal.obj [("foo", JVal.num 1)]) ∧
    getBlock envC7 (JVal.arr [JVal.num 7]) = Outcome.replyResult respC7 ∧
    respC7.rewards = none :=
  ⟨rfl, rfl, rfl⟩

/-- C7 amended: during rewards post-processing, when the structure
produced by the external reward parser lacks a top-level `rewards` key,
the condition is only logged: the rewards stage reports success with nil
rewards and the getBlock request proceeds with null rewards. -/
theorem C7_missing_rewards_key_nonfatal (env : Env) (c : Cid) (rnode : RewardsNode)
    (buf unc : List Nat) (m : List (String × JVal))
    (h0 : c ≠ DummyCID)
    (h1 : GetRewardsByCid env c = Except.ok rnode)
    (h2 : concatFrames env rnode.data = Except.ok buf)
    (h3 : env.decompressZstd buf = Except.ok unc)
    (h4 : env.parseRewards unc = Except.ok (JVal.obj m))
    (h5 : lookupKey m ("rewards") = none) :
    rewardsStep env c = GoOut.ok none := by
  unfold rewardsStep
  rw [if_neg h0]
  simp only [h1, h2, h3, h4, h5]

/-- C7 witness: the amended statement applied to the concrete `envC7`. -/
theorem C7_witness :
    cR ≠ DummyCID ∧
    GetRewardsByCid envC7 cR = Except.ok rewardsNode1 ∧
    lookupKey [("foo", JVal.num 1)] ("rewards") = none ∧
    rewardsStep envC7 cR = GoOut.ok none := by
  refine ⟨by decide, rfl, rfl, ?_⟩
  exact C7_missing_rewards_key_nonfatal envC7 cR rewardsNode1 [5] [6]
    [("foo", JVal.num 1)] (by decide) rfl rfl rfl rfl rfl

/-- C2 counterexample: on `envC2` the rewards bytes reassemble and
decompress but the external rewards parser rejects them; contrary to the
claim, the request does not fail with a JSON-RPC Internal error: it
succeeds with null rewards. -/
theorem C2_counterexample :
    envC2.parseRewards [6] = Except.error Err.parseError ∧
    getBlock envC2 (JVal.arr [JVal.num 7]) = Outcome.replyResult respC2 ∧
    respC2.rewards = none :=
  ⟨rfl, rfl, rfl⟩

/-- C2 amended: a per-transaction fetch/decode failure inside an entry
is skipped (the accumulated transactions are exactly the successfully
decoded ones); an entry fetch/decode failure, a rewards node
fetch/decode failure and a rewards continuation-frame fetch failure all
fail the whole request with a JSON-RPC Internal error; but a rewards
decompression failure panics (the handler crashes without a JSON-RPC
response), and a rewards parse failure is only logged: the rewards stage
succeeds with nil rewards. -/
theorem C2_failure_modes :
    (∀ (env : Env) (cs : List Cid), processEntryTxs env cs =
      cs.filterMap (fun c => (GetTransactionByCid env c).toOption)) ∧
    (∀ (env : Env) (n : Nat) (block : Block), n < 2 ^ 64 →
      GetBlock env n = Except.ok block →
      (∃ c ∈ block.entries, ∃ e, GetEntryByCid env c = Except.error e) →
      getBlock env (JVal.arr [JVal.num (n : Int)]) =
        Outcome.replyError (-32603) ("Internal error")) ∧
    (∀ (env : Env) (c : Cid) (e : Err), c ≠ DummyCID →
      GetRewardsByCid env c = Except.error e →
      rewardsStep env c = GoOut.fail (-32603) ("Internal error")) ∧
    (∀ (env : Env) (c : Cid) (rnode : RewardsNode) (e : Err), c ≠ DummyCID →
      GetRewardsByCid env c = Except.ok rnode →
      concatFrames env rnode.data = Except.error e →
      rewardsStep env c = GoOut.fail (-32603) ("Internal error")) ∧
    (∀ (env : Env) (c : Cid) (rnode : RewardsNode) (buf : List Nat) (e : Err),
      c ≠ DummyCID →
      GetRewardsByCid env c = Except.ok rnode →
      concatFrames env rnode.data = Except.ok buf →
      env.decompressZstd buf = Except.error e →
      rewardsStep env c = GoOut.crash) ∧
    (∀ (env : Env) (c : Cid) (rnode : RewardsNode) (buf unc : List Nat) (e : Err),
      c ≠ DummyCID →
      GetRewardsByCid env c = Except.ok rnode →
      concatFrames env rnode.data = Except.ok buf →
      env.decompressZstd buf = Except.ok unc →
      env.parseRewards unc = Except.error e →
      rewardsStep env c = GoOut.ok none) ∧
    (∀ (env : Env) (n : Nat) (block : Block) (txNodes : List TransactionNode)
      (lastH : Option (List Nat)), n < 2 ^ 64 →
      GetBlock env n = Except.ok block →
      entriesLoop env block.entries = Except.ok (txNodes, lastH) →
      (rewardsStep env block.rewards = GoOut.crash →
        getBlock env (JVal.arr [JVal.num (n : Int)]) = Outcome.crash) ∧
      (∀ (code : Int) (msg : String), rewardsStep env block.rewards = GoOut.fail code msg →
        getBlock env (JVal.arr [JVal.num (n : Int)]) = Outcome.replyError code msg)) := by
  refine ⟨processEntryTxs_filterMap, ?_, ?_, ?_, ?_, ?_, ?_⟩
  · intro env n block hn hb hex
    rw [getBlock_num env n hn]
    obtain ⟨e, he⟩ := entriesLoop_err env block.entries hex
    exact getBlockWithSlot_entriesErr env n block e hb he
  · intro env c e h0 h1
    unfold rewardsStep
    rw [if_neg h0]
    simp only [h1]
  · intro env c rnode e h0 h1 h2
    unfold rewardsStep
    rw [if_neg h0]
    simp only [h1, h2]
  · intro env c rnode buf e h0 h1 h2 h3
    unfold rewardsStep
    rw [if_neg h0]
    simp only [h1, h2, h3]
  · intro env c rnode buf unc e h0 h1 h2 h3 h4
    unfold rewardsStep
    rw [if_neg h0]
    simp only [h1, h2, h3, h4]
  · intro env n block txNodes lastH hn hb he
    constructor
    · intro hr
      rw [getBlock_num env n hn,
        getBlockWithSlot_assemble env n block txNodes lastH hb he]
      exact assembleResponse_rewardsCrash env block txNodes _ hr
    · intro code msg hr
      rw [getBlock_num env n hn,
        getBlockWithSlot_assemble env n block txNodes lastH hb he]
      exact assembleResponse_rewardsFail env block txNodes _ code msg hr

/-- C2 witness: each failure mode of the amended statement exercised on
a concrete environment. -/
theorem C2_witness :
    processEntryTxs envFail [[1]] = [] ∧
    getBlock envEF (JVal.arr [JVal.num 9]) =
      Outcome.replyError (-32603) ("Internal error") ∧
    rewardsStep envFail [9] = GoOut.fail (-32603) ("Internal error") ∧
    rewardsStep envRF cR = GoOut.fail (-32603) ("Internal error") ∧
    rewardsStep envRZ cR = GoOut.crash ∧
    rewardsStep envC2 cR = GoOut.ok none ∧
    getBlock envRZ (JVal.arr [JVal.num 7]) = Outcome.crash := by
  obtain ⟨h1, h2, h3, h4, h5, h6, h7⟩ := C2_failure_modes
  refine ⟨(h1 envFail [[1]]).trans rfl, ?_, ?_, ?_, ?_, ?_, ?_⟩
  · exact h2 envEF 9
      { slot := 9, meta := { parent_slot := 0, blocktime := 0 }, entries := [[6]],
        rewards := DummyCID }
      (by norm_num) rfl ⟨[6], by simp, Err.notFound, rfl⟩
  · exact h3 envFail [9] Err.notFound (by decide) rfl
  · exact h4 envRF cR
      { data := { data := [5], total := 2, index := 0, next := [[6]] } }
      Err.notFound (by decide) rfl rfl
  · exact h5 envRZ cR rewardsNode1 [5] Err.ioError (by decide) rfl rfl rfl
  · exact h6 envC2 cR rewardsNode1 [5] [6] Err.parseError (by decide) rfl rfl rfl rfl
  · exact (h7 envRZ 7 block7 [] none (by norm_num) rfl rfl).1 rfl

/-- C8: for every slot whose block fetch and whole assembly succeed, the
response's `parentSlot` is the block's `meta.parent_slot` (reinterpreted
as u64, the identity on in-range values) and the response's `blockhash`
is the base58 encoding of the 32-byte hash of the last entry of
`block.entries`. -/
theorem C8_parent_slot_and_blockhash (env : Env) (n : Nat) (block : Block)
    (resp : GetBlockResponse) (hn : n < 2 ^ 64)
    (hblock : GetBlock env n = Except.ok block)
    (hrun : getBlock env (JVal.arr [JVal.num (n : Int)]) = Outcome.replyResult resp) :
    resp.parentSlot = intToU64 block.meta.parent_slot ∧
    (0 ≤ block.meta.parent_slot → block.meta.parent_slot < 2 ^ 64 →
      (resp.parentSlot : Int) = block.meta.parent_slot) ∧
    (∀ (cLast : Cid) (entry : Entry), block.entries.getLast? = some cLast →
      GetEntryByCid env cLast = Except.ok entry → entry.hash.length = 32 →
      resp.blockhash = base58Encode entry.hash) := by
  rw [getBlock_num env n hn] at hrun
  obtain ⟨block2, txNodes, lastH, hb2, he2, ha2⟩ := getBlockWithSlot_result env n resp hrun
  rw [hblock] at hb2
  obtain rfl : block = block2 := Except.ok.inj hb2
  obtain ⟨rw0, ats, pv, hr, hbt, hp, hresp⟩ :=
    assembleResponse_result env block txNodes _ resp ha2
  subst hresp
  refine ⟨rfl, ?_, ?_⟩
  · intro hp1 hp2
    show ((intToU64 block.meta.parent_slot : Nat) : Int) = block.meta.parent_slot
    simp only [intToU64]
    omega
  · intro cLast entry hl hge hlen
    obtain ⟨en, hen, hlast⟩ := entriesLoop_last env block.entries txNodes lastH cLast he2 hl
    rw [hge] at hen
    obtain rfl : entry = en := Except.ok.inj hen
    show base58Encode (lastH.getD (List.replicate 32 0)) = base58Encode entry.hash
    rw [hlast, Option.getD_some, hashFromBytes_of_length entry.hash hlen]

/-- C8 witness: the happy-path environment, whose block at slot 5 has
parent slot 0 and one entry with a concrete 32-byte hash. -/
theorem C8_witness :
    GetBlock envHappy 5 = Except.ok block5 ∧
    getBlock envHappy (JVal.arr [JVal.num 5]) = Outcome.replyResult happyResp ∧
    block5.entries.getLast? = some cE ∧
    GetEntryByCid envHappy cE = Except.ok entry1 ∧
    entry1.hash.length = 32 ∧
    happyResp.parentSlot = intToU64 block5.meta.parent_slot ∧
    happyResp.blockhash = base58Encode entry1.hash := by
  have h := C8_parent_slot_and_blockhash envHappy 5 block5 happyResp (by norm_num) rfl rfl
  exact ⟨rfl, rfl, rfl, rfl, rfl, h.1, h.2.2 cE entry1 rfl rfl rfl⟩

/-- C10: for every successful getBlock response, the `blockTime` field
is present and non-null, and its value is the decoded block's
`meta.blocktime` reinterpreted from signed to unsigned 64-bit (taken
modulo 2^64), even when the blocktime is zero or negative. -/
theorem C10_blocktime_always_present (env : Env) (n : Nat) (block : Block)
    (resp : GetBlockResponse) (hn : n < 2 ^ 64)
    (hblock : GetBlock env n = Except.ok block)
    (hrun : getBlock env (JVal.arr [JVal.num (n : Int)]) = Outcome.replyResult resp) :
    resp.blockTime = some (intToU64 block.meta.blocktime) ∧
    resp.blockTime ≠ none ∧
    intToU64 block.meta.blocktime = (block.meta.blocktime % (2 ^ 64 : Int)).toNat := by
  rw [getBlock_num env n hn] at hrun
  obtain ⟨block2, txNodes, lastH, hb2, he2, ha2⟩ := getBlockWithSlot_result env n resp hrun
  rw [hblock] at hb2
  obtain rfl : block = block2 := Except.ok.inj hb2
  obtain ⟨rw0, ats, pv, hr, hbt, hp, hresp⟩ :=
    assembleResponse_result env block txNodes _ resp ha2
  subst hresp
  exact ⟨rfl, by simp, rfl⟩

/-- C10 witness: the happy-path block has blocktime -7 and the response
carries `blockTime = some (2^64 - 7)`. -/
theorem C10_witness :
    block5.meta.blocktime = -7 ∧
    getBlock envHappy (JVal.arr [JVal.num 5]) = Outcome.replyResult happyResp ∧
    happyResp.blockTime = some (intToU64 block5.meta.blocktime) ∧
    intToU64 (-7) = 18446744073709551609 := by
  have h := C10_blocktime_always_present envHappy 5 block5 happyResp (by norm_num) rfl rfl
  exact ⟨rfl, rfl, h.1, by decide⟩

/-- C9 counterexample: a key inside an array nested in an array is not
rewritten by the camel-case post-pass (the source only recurses into
objects that sit directly inside an array); the resulting value violates
the key-case law even though the key would convert cleanly. -/
theorem C9_counterexample :
    mapToCamelCase [("outer_key", JVal.arr [JVal.arr [JVal.obj [("snake_key", JVal.num 1)]]])] =
      [("outerKey", JVal.arr [JVal.arr [JVal.obj [("snake_key", JVal.num 1)]]])] ∧
    allKeysCamel (JVal.obj (mapToCamelCase
      [("outer_key", JVal.arr [JVal.arr [JVal.obj [("snake_key", JVal.num 1)]]])])) = false ∧
    isLowerCamelKey (toLowerCamelCase ("snake_key")) = true := by
  refine ⟨?_, ?_, rfl⟩
  · simp only [mapToCamelCase, camelValue, camelArrElems]
    rfl
  · simp only [mapToCamelCase, camelValue, camelArrElems, allKeysCamel, allKeysCamelObj,
      allKeysCamelArr]
    rfl

/-- C9 amended: the post-pass rewrites every key of the map itself,
recurses into object values and into objects sitting directly inside
array values, but leaves every other array element — nested arrays
included, along with everything inside them — unchanged; keys below an
array nested in an array are therefore not converted. -/
theorem C9_camel_pass_scope :
    (∀ m : List (String × JVal),
      (mapToCamelCase m).map Prod.fst = m.map (fun kv => toLowerCamelCase kv.1)) ∧
    (∀ (m : List (String × JVal)) (k : String) (fields : List (String × JVal)),
      (k, JVal.obj fields) ∈ m →
      (toLowerCamelCase k, JVal.obj (mapToCamelCase fields)) ∈ mapToCamelCase m) ∧
    (∀ (m : List (String × JVal)) (k : String) (elems : List JVal),
      (k, JVal.arr elems) ∈ m →
      (toLowerCamelCase k, JVal.arr (camelArrElems elems)) ∈ mapToCamelCase m) ∧
    (∀ (elems : List JVal) (j : Nat) (fields : List (String × JVal)),
      elems.get? j = some (JVal.obj fields) →
      (camelArrElems elems).get? j = some (JVal.obj (mapToCamelCase fields))) ∧
    (∀ (elems : List JVal) (j : Nat) (v : JVal),
      elems.get? j = some v → (∀ fields, v ≠ JVal.obj fields) →
      (camelArrElems elems).get? j = some v) := by
  refine ⟨?_, ?_, ?_, ?_, ?_⟩
  · intro m
    induction m with
    | nil => simp [mapToCamelCase]
    | cons kv rest ih =>
      obtain ⟨k, v⟩ := kv
      simp [mapToCamelCase, ih]
  · intro m k fields hm
    induction m with
    | nil => simp at hm
    | cons kv rest ih =>
      obtain ⟨k0, v0⟩ := kv
      rcases List.mem_cons.mp hm with h | h
      · injection h with h1 h2
        subst h1
        subst h2
        simp only [mapToCamelCase, camelValue]
        exact List.mem_cons_self _ _
      · simp only [mapToCamelCase]
        exact List.mem_cons_of_mem _ (ih h)
  · intro m k elems hm
    induction m with
    | nil => simp at hm
    | cons kv rest ih =>
      obtain ⟨k0, v0⟩ := kv
      rcases List.mem_cons.mp hm with h | h
      · injection h with h1 h2
        subst h1
        subst h2
        simp only [mapToCamelCase, camelValue]
        exact List.mem_cons_self _ _
      · simp only [mapToCamelCase]
        exact List.mem_cons_of_mem _ (ih h)
  · intro elems
    induction elems with
    | nil =>
      intro j fields h
      simp at h
    | cons v rest ih =>
      intro j fields h
      cases j with
      | zero =>
        have hv : v = JVal.obj fields := by simpa using h
        subst hv
        simp [camelArrElems]
      | succ j2 =>
        have hstep : (camelArrElems (v :: rest)).get? (j2 + 1) = (camelArrElems rest).get? j2 := by
          cases v <;> simp [camelArrElems]
        rw [hstep]
        exact ih j2 fields (by simpa using h)
  · intro elems
    induction elems with
    | nil =>
      intro j v h _
      simp at h
    | cons w rest ih =>
      intro j v h hne
      cases j with
      | zero =>
        have hv : w = v := by simpa using h
        subst hv
        cases w with
        | obj fields => exact absurd rfl (hne fields)
        | null => simp [camelArrElems]
        | boolean b => simp [camelArrElems]
        | num n => simp [camelArrElems]
        | str s => simp [camelArrElems]
        | arr xs => simp [camelArrElems]
      | succ j2 =>
        have hstep : (camelArrElems (w :: rest)).get? (j2 + 1) = (camelArrElems rest).get? j2 := by
          cases w <;> simp [camelArrElems]
        rw [hstep]
        exact ih j2 v (by simpa using h) hne

/-- C9 witness: the amended statement applied to concrete maps and
arrays, including a nested array left unchanged. -/
theorem C9_witness :
    (mapToCamelCase [("a_b", JVal.num 1)]).map Prod.fst = ["aB"] ∧
    (toLowerCamelCase ("k_a"), JVal.obj (mapToCamelCase [("x_y", JVal.num 2)])) ∈
      mapToCamelCase [("k_a", JVal.obj [("x_y", JVal.num 2)])] ∧
    (toLowerCamelCase ("k_b"), JVal.arr (camelArrElems [JVal.num 4])) ∈
      mapToCamelCase [("k_b", JVal.arr [JVal.num 4])] ∧
    (camelArrElems [JVal.obj [("p_q", JVal.num 3)]]).get? 0 =
      some (JVal.obj (mapToCamelCase [("p_q", JVal.num 3)])) ∧
    (camelArrElems [JVal.arr [JVal.obj [("r_s", JVal.num 5)]]]).get? 0 =
      some (JVal.arr [JVal.obj [("r_s", JVal.num 5)]]) := by
  obtain ⟨h1, h2, h3, h4, h5⟩ := C9_camel_pass_scope
  refine ⟨(h1 [("a_b", JVal.num 1)]).trans (by rfl), ?_, ?_, ?_, ?_⟩
  · exact h2 [("k_a", JVal.obj [("x_y", JVal.num 2)])] ("k_a") [("x_y", JVal.num 2)]
      (List.mem_cons_self _ _)
  · exact h3 [("k_b", JVal.arr [JVal.num 4])] ("k_b") [JVal.num 4] (List.mem_cons_self _ _)
  · exact h4 [JVal.obj [("p_q", JVal.num 3)]] 0 [("p_q", JVal.num 3)] rfl
  · exact h5 [JVal.arr [JVal.obj [("r_s", JVal.num 5)]]] 0 (JVal.arr [JVal.obj [("r_s", JVal.num 5)]])
      rfl (fun fields h => JVal.noConfusion h)

end YF
